import Mathlib

/-!
# ScholarTwin — page-batch translation/segmentation pipeline, shallow embedding

This file embeds the core pipeline of the ScholarTwin repository in Lean 4 and
proves/refutes the frozen specification claims about it.

Embedded source locations:
* `src/types.ts` — `SegmentType`, `PaperSegment`, `PaperMetadata`.
* `src/unnamed/part_006` (`geminiService.ts`) — `validateSegmentType`,
  `analyzePageContent` (response normalization and error containment),
  `analyzePaperMetadata`.
* `src/App.tsx` — `executeTranslation` (the Page Batch Controller), including
  the inline page-replacement merge (`setSegments(prev => ...)`).
* `src/components/TwinView.tsx` `handleScroll` and
  `src/components/ExternalPdfViewer.tsx` scroll-sync effect.

Modelling conventions:
* External effects (the PDF rasterizer, the Gemini model client, `Date.now()`,
  `JSON.parse`) are oracles passed as explicit arguments; everything the
  repository itself computes is embedded executably.
* JS strings are Lean `String`s; the JS helpers used by the source
  (`String.prototype.includes`, `toLowerCase`, `replace`) are re-implemented
  structurally over `List Char` so that they evaluate by `decide`/`rfl`
  (ASCII inputs, which is all the source compares against).
* JS numbers in the batch controller are `Nat` (page indices, progress
  percentages); `Math.round` of a non-negative ratio is `jsRound`.
* React `useState` state is an explicit `AppState` record; one invocation of
  `executeTranslation` is a pure function from the pre-invocation state (the
  values captured by the closure) to the post-invocation state, the list of
  `alert` messages raised, and the ordered trace of `setProgress` values.
-/

/-- Source `src/types.ts`, `SegmentType`. -/
inductive SegmentType where
  | TEXT
  | HEADING
  | ABSTRACT
  | FIGURE_CAPTION
  | EQUATION
  | TABLE
  | CODE
deriving DecidableEq, Repr

/-- Source `src/types.ts`, `PaperSegment`.  Optional TS fields are `Option`s. -/
structure PaperSegment where
  id : String
  pageIndex : Nat
  type : SegmentType
  original : String
  translated : String
  citations : Option (List String) := none
  explanation : Option String := none
  explanationEn : Option String := none
  isExplaining : Option Bool := none
  isBookmarked : Option Bool := none
  userNote : Option String := none
deriving DecidableEq, Repr

/-- Source `src/types.ts`, `PaperMetadata`. -/
structure PaperMetadata where
  title : String
  authors : List String
  year : String
  journal : String
  volumeIssue : Option String := none
  pages : Option String := none
  doi : Option String := none
deriving DecidableEq, Repr

/-! ## JS string helpers (structural re-implementations) -/

/-- Does `pat` occur at the very start of `l`?  (List-level `startsWith`.) -/
def listStartsWith : List Char → List Char → Bool
  | [], _ => true
  | _ :: _, [] => false
  | p :: ps, c :: cs => p == c && listStartsWith ps cs

/-- Does `pat` occur anywhere inside `l`?  (JS `String.prototype.includes`.) -/
def includesAux (pat : List Char) : List Char → Bool
  | [] => listStartsWith pat []
  | c :: rest => listStartsWith pat (c :: rest) || includesAux pat rest

/-- JS `s.includes(pat)`. -/
def includesSub (s pat : String) : Bool :=
  includesAux pat.data s.data

/-- JS `s.toLowerCase()` (ASCII; the source only compares ASCII keywords). -/
def lowerString (s : String) : String :=
  ⟨s.data.map Char.toLower⟩

/-- One global-replace-with-empty pass (JS `s.replace(/pat/g, '')`): scan left
to right, delete each non-overlapping occurrence of `pat`.  Structural on a
fuel bounded by the list length so it reduces in the kernel. -/
def stripAllAux (pat : List Char) : Nat → List Char → List Char
  | 0, l => l
  | _, [] => []
  | fuel + 1, c :: rest =>
    if listStartsWith pat (c :: rest) then
      stripAllAux pat fuel (List.drop (pat.length - 1) rest)
    else
      c :: stripAllAux pat fuel rest

/-- JS `s.replace(/pat/g, '')`. -/
def stripAll (pat : List Char) (l : List Char) : List Char :=
  stripAllAux pat l.length l

/-- Source `src/unnamed/part_006` line 184:
`rawText.replace(/```json/g, '').replace(/```/g, '')`. -/
def stripCodeFences (rawText : String) : String :=
  ⟨stripAll "```".data (stripAll "```json".data rawText.data)⟩

/-! ## Type coercion (`validateSegmentType`, `src/unnamed/part_006` 210–219) -/

/-- Source `src/unnamed/part_006` `validateSegmentType`: chained case-insensitive
substring tests with fixed precedence, defaulting to TEXT. -/
def validateSegmentType (typeStr : String) : SegmentType :=
  let t := lowerString typeStr
  if includesSub t "head" then .HEADING
  else if includesSub t "abstract" then .ABSTRACT
  else if includesSub t "fig" || includesSub t "cap" then .FIGURE_CAPTION
  else if includesSub t "eq" || includesSub t "math" then .EQUATION
  else if includesSub t "tab" then .TABLE
  else if includesSub t "code" then .CODE
  else .TEXT

/-- Modelled from the spec (§4.2/§8 and Design Note 2): the same coercion as an
explicit ordered classification table, evaluated top to bottom; the first
matching family wins, `TEXT` if nothing matches.  Used to state that the
chained conditionals of `validateSegmentType` realise this precedence order. -/
def coercionTable : List ((String → Bool) × SegmentType) :=
  [ (fun t => includesSub t "head", .HEADING),
    (fun t => includesSub t "abstract", .ABSTRACT),
    (fun t => includesSub t "fig" || includesSub t "cap", .FIGURE_CAPTION),
    (fun t => includesSub t "eq" || includesSub t "math", .EQUATION),
    (fun t => includesSub t "tab", .TABLE),
    (fun t => includesSub t "code", .CODE) ]

/-- Modelled from the spec: first-match coercion over `coercionTable`. -/
def coerceType (label : String) : SegmentType :=
  match coercionTable.find? (fun pr => pr.1 (lowerString label)) with
  | some pr => pr.2
  | none => .TEXT

/-! ## Decimal representation of `Nat` (for segment-id reasoning) -/

/-- Decimal character list of `n`, via Mathlib's verified `Nat.digits`
(used to reason about core's fuel-based `Nat.repr`). -/
def decDigits (n : Nat) : List Char :=
  if n = 0 then ['0'] else ((Nat.digits 10 n).map Nat.digitChar).reverse

/-- Segment id template of `src/unnamed/part_006` line 193:
`pg${pageIndex}_${idx}_${Date.now()}` (`pageIndex` is the 0-based index the
function was called with). -/
def mkSegId (pageIndex idx now : Nat) : String :=
  "pg" ++ Nat.repr pageIndex ++ "_" ++ Nat.repr idx ++ "_" ++ Nat.repr now

/-- Error-segment id template of `src/unnamed/part_006` line 200:
`err_${pageIndex}` — note: no timestamp component. -/
def errSegId (pageIndex : Nat) : String :=
  "err_" ++ Nat.repr pageIndex

/-! ## Model Response Normalizer (`analyzePageContent`, part_006 88–208) -/

/-- One item of the parsed `segments` array as the model returns it: the
response schema requires `type`, `original`, `translated`; `id` and
`citations` may be absent. -/
structure RawSegment where
  id : Option String := none
  type : String
  original : String
  translated : String
  citations : Option (List String) := none
deriving DecidableEq, Repr

/-- A successfully `JSON.parse`d response object; `segments` may be absent
(the source guards with `result.segments || []`). -/
structure ParsedDoc where
  segments : Option (List RawSegment) := none
deriving DecidableEq, Repr

/-- The synthetic error segment substituted for a page whose analysis failed
(part_006 lines 199–206). `pageIndex` is 0-based, as passed to
`analyzePageContent`; the stored `pageIndex` field is 1-based. -/
def errorSegment (pageIndex : Nat) : PaperSegment :=
  { id := errSegId pageIndex
    pageIndex := pageIndex + 1
    type := .TEXT
    original := "[Error processing Page " ++ Nat.repr (pageIndex + 1) ++ "]"
    translated := "[페이지 " ++ Nat.repr (pageIndex + 1) ++ " 처리 중 오류가 발생했습니다. 재시도 해주세요.]"
    citations := some [] }

/-- The per-item mapping of part_006 lines 191–196: spread the raw item,
override `id` (the `pg..._..._...` template), stamp the 1-based `pageIndex`,
and coerce `type`. -/
def normalizeItem (pageIndex : Nat) (now : Nat → Nat) (idx : Nat) (s : RawSegment) :
    PaperSegment :=
  { id := mkSegId pageIndex idx (now idx)
    pageIndex := pageIndex + 1
    type := validateSegmentType s.type
    original := s.original
    translated := s.translated
    citations := s.citations }

/-- part_006 lines 180–207: strip code fences, `JSON.parse` (the external
parser is the oracle `parse`; `none` models a parse exception), then map each
raw item through `normalizeItem`; on any failure the catch block substitutes
the single `errorSegment`.  `now` is the `Date.now()` oracle, sampled once
per item.  The function is total: no failure escapes it. -/
def normalizeResponse (parse : String → Option ParsedDoc) (rawText : String)
    (pageIndex : Nat) (now : Nat → Nat) : List PaperSegment :=
  match parse (stripCodeFences rawText) with
  | some result => (result.segments.getD []).mapIdx (normalizeItem pageIndex now)
  | none => [errorSegment pageIndex]

/-! ## Page Batch Controller (`executeTranslation`, `src/App.tsx` 115–177) -/

/-- One rasterized page (`PageImage` of `src/unnamed/part_006` fileHelper):
1-based `pageIndex`, JPEG `base64`, pixel dimensions. -/
structure PageImage where
  pageIndex : Nat
  base64 : String := ""
  width : Nat := 0
  height : Nat := 0
deriving DecidableEq, Repr

/-- Outcome of the external model-client interaction inside one
`analyzePageContent` call:
* `throwClient` — `getAiClient()`/`getStoredSettings()` threw *outside* the
  function's try block (e.g. missing API key); the exception escapes.
* `genFail` — `generateContent` rejected; caught by the function's own catch.
* `raw text` — a response arrived with the given raw text. -/
inductive PageOutcome where
  | throwClient
  | genFail
  | raw (text : String)
deriving DecidableEq, Repr

/-- Outcome of the external interaction inside one `analyzePaperMetadata`
call (part_006 49–85): `throwClient` escapes (client construction threw),
`genFail` is caught by the function's own catch, `ok m` is a parsed result. -/
inductive MetaOutcome where
  | throwClient
  | genFail
  | ok (m : PaperMetadata)
deriving DecidableEq, Repr

/-- part_006 49–85 `analyzePaperMetadata`: its own catch turns a failed model
call into the stub `{ title: "Unknown Paper", authors: [], ... }`; only a
throw outside the try (client construction) escapes as `Except.error`. -/
def analyzePaperMetadata (o : MetaOutcome) : Except Unit PaperMetadata :=
  match o with
  | .throwClient => .error ()
  | .genFail => .ok { title := "Unknown Paper", authors := [], year := "", journal := "" }
  | .ok m => .ok m

/-- part_006 88–208 `analyzePageContent` for a page (0-based `pageIndex`):
a `throwClient` outcome escapes; a rejected request is caught and yields the
one-element error page; a raw response goes through `normalizeResponse`. -/
def analyzePageContent (parse : String → Option ParsedDoc) (o : PageOutcome)
    (pageIndex : Nat) (now : Nat → Nat) : Except Unit (List PaperSegment) :=
  match o with
  | .throwClient => .error ()
  | .genFail => .ok [errorSegment pageIndex]
  | .raw text => .ok (normalizeResponse parse text pageIndex now)

/-- Source `App.tsx` 159–162, the page-replacement merge applied as a single
functional `setSegments` update (one atomic state swap):
remove every segment of `pageIndex`, then append `newSegments` in order. -/
def mergePage (pageIndex : Nat) (newSegments prev : List PaperSegment) : List PaperSegment :=
  prev.filter (fun s => s.pageIndex != pageIndex) ++ newSegments

/-- JS `Math.round (a / b)` for non-negative exact ratios:
round half away from zero, i.e. `⌊a/b + 1/2⌋`. -/
def jsRound (a b : Nat) : Nat :=
  (2 * a + b) / (2 * b)

/-- Result of the per-page loop of `executeTranslation` (App.tsx 153–164):
the segment collection, the last `setLastProcessedPage` value, and the
`setProgress` values emitted, plus whether an exception escaped the loop. -/
inductive LoopResult where
  | done (segments : List PaperSegment) (lastProcessed : Nat) (trace : List Nat)
  | failed (segments : List PaperSegment) (lastProcessed : Nat) (trace : List Nat)
deriving Repr

/-- App.tsx 153–164, the strictly sequential per-page loop.  `n` is
`pagesToProcess.length`; `lp0` is the stale closure value of
`lastProcessedPage` captured when the invocation started (the source reads
the closure variable, not a functional update); `clock i` is the `Date.now()`
oracle for iteration `i`.  Each iteration emits
`10 + Math.round(((i+1)/n)*80)`, then awaits `analyzePageContent`; a thrown
exception aborts the loop (`failed`), otherwise the page is merged by
page-replacement and the watermark updated. -/
def processPages (parse : String → Option ParsedDoc) (pageOutcome : Nat → PageOutcome)
    (clock : Nat → Nat → Nat) (n lp0 : Nat) :
    Nat → List PageImage → List PaperSegment → Nat → LoopResult
  | _, [], segs, lp => .done segs lp []
  | i, img :: rest, segs, lp =>
    let currentProgress := 10 + jsRound ((i + 1) * 80) n
    match analyzePageContent parse (pageOutcome (img.pageIndex - 1)) (img.pageIndex - 1) (clock i) with
    | .error _ => .failed segs lp [currentProgress]
    | .ok pageSegments =>
      match processPages parse pageOutcome clock n lp0 (i + 1) rest
          (mergePage img.pageIndex pageSegments segs) (max lp0 img.pageIndex) with
      | .done s l t => .done s l (currentProgress :: t)
      | .failed s l t => .failed s l (currentProgress :: t)

/-- The successful merges the loop performs (same recursion as `processPages`
restricted to the collection): used to state what the collection contains
after a partial or complete run. -/
def mergeRun (parse : String → Option ParsedDoc) (pageOutcome : Nat → PageOutcome)
    (clock : Nat → Nat → Nat) : Nat → List PageImage → List PaperSegment → List PaperSegment
  | _, [], segs => segs
  | i, img :: rest, segs =>
    match analyzePageContent parse (pageOutcome (img.pageIndex - 1)) (img.pageIndex - 1) (clock i) with
    | .ok ps => mergeRun parse pageOutcome clock (i + 1) rest (mergePage img.pageIndex ps segs)
    | .error _ => segs

/-- The per-page `setProgress` values the loop emits, starting at loop
iteration `i`, for `m` remaining pages out of `n` total
(`10 + Math.round(((i+1)/n)*80)` per iteration). -/
def loopTrace (n : Nat) : Nat → Nat → List Nat
  | _, 0 => []
  | i, m + 1 => (10 + jsRound ((i + 1) * 80) n) :: loopTrace n (i + 1) m

/-- The `App` component state touched by `executeTranslation`. -/
structure AppState where
  segments : List PaperSegment
  metadata : Option PaperMetadata
  totalPages : Nat
  lastProcessedPage : Nat
  currentActiveRange : String
  progress : Nat
  isProcessing : Bool
  showPdfWindow : Bool
deriving DecidableEq, Repr

/-- Oracles for one `executeTranslation` invocation:
* `hasFile` / `fileName` — `selectedFile`;
* `render` — outcome of `renderPdfPagesToImages(selectedFile, endPage)`
  (`error msg` models the rejected promise with message `msg`);
* `metaFetch` — outcome of metadata extraction, keyed by the base64 bitmap it
  is called with (the source passes `pageImages[0].base64`, i.e. page 1);
* `pageOutcome` — model-client outcome per 0-based page index;
* `parse` — the `JSON.parse` oracle;
* `clock` — `Date.now()` per (loop iteration, item index). -/
structure TransEnv where
  hasFile : Bool
  fileName : String
  render : Except String (List PageImage)
  metaFetch : String → MetaOutcome
  pageOutcome : Nat → PageOutcome
  parse : String → Option ParsedDoc
  clock : Nat → Nat → Nat

/-- App.tsx 143–151: the metadata step.  When `metadata` is unset and
the call is not an append, emit `setProgress(10)` and request metadata with
the first rendered image's bitmap (`pageImages[0].base64`, i.e. page 1);
if `analyzePaperMetadata` itself throws, fall back to a stub whose title is
the file name; otherwise keep the existing metadata and emit nothing. -/
def metadataStep (env : TransEnv) (isAppend : Bool) (s0 : AppState)
    (firstImage : PageImage) : Option PaperMetadata × List Nat :=
  if s0.metadata.isNone && !isAppend then
    match analyzePaperMetadata (env.metaFetch firstImage.base64) with
    | .ok m => (some m, [10])
    | .error _ =>
        (some { title := env.fileName, authors := [], year := "", journal := "" }, [10])
  else (s0.metadata, [])

/-- What one `executeTranslation` invocation produces: the post-invocation
state, the `alert` messages raised, and the ordered `setProgress` trace. -/
structure RunResult where
  state : AppState
  alerts : List String
  trace : List Nat
deriving Repr

/-- Source `src/App.tsx` 115–177, `executeTranslation(startPage, endPage, isAppend)`,
faithful to the source control flow:
1. guard `!selectedFile`; 2. `setIsProcessing(true); setProgress(5)`;
3. `if (!isAppend) setSegments([])` (the collection is cleared *before*
   rasterization on a fresh batch);
4. rasterize up to `endPage`; on failure alert and return (progress stays 5);
5. `setTotalPages(max)`; filter to `[startPage, endPage]`; if empty, alert
   and return; 6. `setShowPdfWindow(true)`;
7. if metadata unset and not appending: `setProgress(10)`, fetch metadata,
   falling back to a file-name stub only if `analyzePaperMetadata` throws;
8. sequential per-page loop (`processPages`); a throw escaping the loop is
   caught: alert `"Failed to process PDF."` and `setProgress(0)`;
9. otherwise update the active range descriptor and `setProgress(100)`.
`finally` clears `isProcessing` on every path. -/
def executeTranslation (env : TransEnv) (startPage endPage : Nat) (isAppend : Bool)
    (s0 : AppState) : RunResult :=
  if !env.hasFile then { state := s0, alerts := [], trace := [] }
  else
    let segs0 := if !isAppend then [] else s0.segments
    match env.render with
    | .error msg =>
        { state := { s0 with segments := segs0, progress := 5, isProcessing := false }
          alerts := ["Failed to read the PDF file. \nError: " ++ msg]
          trace := [5] }
    | .ok pageImages =>
        let totalPages1 := max s0.totalPages pageImages.length
        let pagesToProcess := pageImages.filter fun p =>
          startPage ≤ p.pageIndex && p.pageIndex ≤ endPage
        if pagesToProcess.isEmpty then
          { state := { s0 with
                        segments := segs0
                        progress := 5
                        totalPages := totalPages1
                        isProcessing := false }
            alerts := ["No pages found for this range."]
            trace := [5] }
        else
          let metaStep : Option PaperMetadata × List Nat :=
            metadataStep env isAppend s0 (pageImages.headD { pageIndex := 1 })
          match processPages env.parse env.pageOutcome env.clock
              pagesToProcess.length s0.lastProcessedPage 0 pagesToProcess segs0
              s0.lastProcessedPage with
          | .failed segs lp t =>
              { state := { s0 with
                            segments := segs
                            metadata := metaStep.1
                            totalPages := totalPages1
                            lastProcessedPage := lp
                            progress := 0
                            isProcessing := false
                            showPdfWindow := true }
                alerts := ["Failed to process PDF."]
                trace := [5] ++ metaStep.2 ++ t ++ [0] }
          | .done segs lp t =>
              let newRangeStr := Nat.repr startPage ++ "-" ++ Nat.repr endPage
              { state := { s0 with
                            segments := segs
                            metadata := metaStep.1
                            totalPages := totalPages1
                            lastProcessedPage := lp
                            currentActiveRange :=
                              if isAppend then s0.currentActiveRange ++ ", " ++ newRangeStr
                              else newRangeStr
                            progress := 100
                            isProcessing := false
                            showPdfWindow := true }
                alerts := []
                trace := [5] ++ metaStep.2 ++ t ++ [100] }

/-! ## Dual-View Scroll Synchronizer
(`TwinView.tsx` `handleScroll` 862–892, `ExternalPdfViewer.tsx` 87–102) -/

/-- A JS number as produced by the scroll computations: an exact rational or
one of the IEEE special values that division by zero can produce. -/
inductive JsNum where
  | num (q : ℚ)
  | posInf
  | negInf
  | nan
deriving DecidableEq, Repr

/-- JS division `a / b` for finite operands. -/
def jsDiv (a b : ℚ) : JsNum :=
  if b = 0 then (if 0 < a then .posInf else if a < 0 then .negInf else .nan)
  else .num (a / b)

/-- JS multiplication of a (possibly special) value by a finite number. -/
def jsMulQ (a : JsNum) (b : ℚ) : JsNum :=
  match a with
  | .num q => .num (q * b)
  | .posInf => if 0 < b then .posInf else if b < 0 then .negInf else .nan
  | .negInf => if 0 < b then .negInf else if b < 0 then .posInf else .nan
  | .nan => .nan

/-- JS `isNaN`. -/
def jsIsNaN : JsNum → Bool
  | .nan => true
  | _ => false

/-- Source `TwinView.tsx` `handleScroll` with source right, the forwarding half:
`percentage = scrollTop / (scrollHeight - clientHeight)`, forwarded to
`onSyncScroll` (the detached surface) iff `!isNaN(percentage)`.  `none` means
the update was skipped. -/
def forwardedFraction (scrollTop scrollHeight clientHeight : ℚ) : Option JsNum :=
  let percentage := jsDiv scrollTop (scrollHeight - clientHeight)
  if jsIsNaN percentage then none else some percentage

/-- Source `TwinView.tsx` `handleScroll` with source right, in full: the forwarded fraction
plus the value assigned to the companion (left) pane's `scrollTop`
(`percentage * (left.scrollHeight - left.clientHeight)`, executed only in
text view mode and with no guard at all). -/
def handleScrollRight (viewModeText : Bool) (scrollTop scrollHeight clientHeight
    leftScrollHeight leftClientHeight : ℚ) : Option JsNum × Option JsNum :=
  let percentage := jsDiv scrollTop (scrollHeight - clientHeight)
  ( if jsIsNaN percentage then none else some percentage,
    if viewModeText then some (jsMulQ percentage (leftScrollHeight - leftClientHeight))
    else none )

/-- Source `ExternalPdfViewer.tsx` 87–102, the scroll-sync effect: when the detached
window exists and `scrollPercentage >= 0`, it scrolls to
`(docHeight - winHeight) * scrollPercentage`; otherwise nothing is applied. -/
def detachedScrollTarget (scrollPercentage docHeight winHeight : ℚ) : Option ℚ :=
  if 0 ≤ scrollPercentage then some ((docHeight - winHeight) * scrollPercentage) else none

/-! ## Concrete sample data for counterexamples and witnesses -/

/-- A sample pre-existing segment (as if merged for page 1 earlier). -/
def sampleSegment : PaperSegment :=
  { id := "pg0_0_1", pageIndex := 1, type := .TEXT, original := "a", translated := "b" }

/-- A sample app state holding one segment for page 1. -/
def sampleState : AppState :=
  { segments := [sampleSegment], metadata := none, totalPages := 3,
    lastProcessedPage := 1, currentActiveRange := "1-1", progress := 0,
    isProcessing := false, showPdfWindow := false }

/-- A sample freshly produced segment for page 2. -/
def sampleSegment2 : PaperSegment :=
  { id := "pg1_0_5", pageIndex := 2, type := .TEXT, original := "c", translated := "d" }

/-- A sample raw model item. -/
def sampleRawItem : RawSegment :=
  { type := "text", original := "o", translated := "t" }

/-- A parse oracle that always succeeds with two raw items. -/
def sampleParse : String → Option ParsedDoc :=
  fun _ => some { segments := some [sampleRawItem, sampleRawItem] }

/-- An environment whose rasterizer fails. -/
def renderFailEnv : TransEnv :=
  { hasFile := true, fileName := "mypaper.pdf", render := .error "bad xref",
    metaFetch := fun _ => .genFail, pageOutcome := fun _ => .genFail,
    parse := fun _ => none, clock := fun _ _ => 0 }

/-- An environment that renders two pages and whose model calls all fail
(caught per page); metadata extraction also fails inside its own catch. -/
def twoPageEnv : TransEnv :=
  { hasFile := true, fileName := "mypaper.pdf",
    render := .ok [{ pageIndex := 1 }, { pageIndex := 2 }],
    metaFetch := fun _ => .genFail, pageOutcome := fun _ => .genFail,
    parse := fun _ => none, clock := fun _ _ => 0 }

/-- An environment that renders two pages, where page 1 (0-based index 0)
succeeds with a failed parse and page 2 (0-based index 1) throws from client
construction. -/
def throwOnSecondEnv : TransEnv :=
  { hasFile := true, fileName := "mypaper.pdf",
    render := .ok [{ pageIndex := 1 }, { pageIndex := 2 }],
    metaFetch := fun _ => .genFail,
    pageOutcome := fun i => if i = 0 then .genFail else .throwClient,
    parse := fun _ => none, clock := fun _ _ => 0 }

/-! ## Theorems -/

/-- C3: the coercion of a free-form type label is a pure, deterministic
function of the label string (it is a Lean function of the label alone),
equal to the first-match evaluation of the ordered classification table
heading > abstract > figure/caption > equation/math > table > code with
default TEXT; in particular a label containing both "table" and "fig"
(and no earlier-family keyword) resolves to FIGURE_CAPTION because the
figure/caption family is checked before the table family. -/
theorem validateSegmentType_precedence (label : String) :
    validateSegmentType label = coerceType label ∧
    validateSegmentType "Table Fig" = SegmentType.FIGURE_CAPTION := by
  constructor
  · unfold validateSegmentType coerceType coercionTable
    cases h1 : includesSub (lowerString label) "head" <;>
    cases h2 : includesSub (lowerString label) "abstract" <;>
    cases h3 : includesSub (lowerString label) "fig" || includesSub (lowerString label) "cap" <;>
    cases h4 : includesSub (lowerString label) "eq" || includesSub (lowerString label) "math" <;>
    cases h5 : includesSub (lowerString label) "tab" <;>
    cases h6 : includesSub (lowerString label) "code" <;>
    simp [List.find?, h1, h2, h3, h4, h5, h6]
  · decide

/-! ### Decimal representation lemmas (for id uniqueness) -/

theorem toDigitsCore_eq_digits (n : Nat) (hn : 0 < n) :
    ∀ (f : Nat) (ds : List Char), n < f →
      Nat.toDigitsCore 10 f n ds = ((Nat.digits 10 n).map Nat.digitChar).reverse ++ ds := by
  induction n using Nat.strong_induction_on with
  | _ n ih =>
    intro f ds hf
    match f, hf with
    | f + 1, hf =>
      rw [Nat.toDigitsCore]
      rw [Nat.digits_def' (by norm_num : (1:ℕ) < 10) hn]
      by_cases h10 : n / 10 = 0
      · rw [if_pos h10, h10]
        simp
      · rw [if_neg h10]
        have hlt : n / 10 < n := Nat.div_lt_self hn (by norm_num)
        have hfl : n / 10 < f := lt_of_lt_of_le hlt (Nat.lt_succ_iff.mp hf)
        rw [ih (n / 10) hlt (Nat.pos_of_ne_zero h10) f _ hfl]
        simp

theorem repr_data (n : Nat) : (Nat.repr n).data = decDigits n := by
  unfold Nat.repr Nat.toDigits decDigits
  by_cases h : n = 0
  · subst h; rfl
  · rw [if_neg h,
      toDigitsCore_eq_digits n (Nat.pos_of_ne_zero h) (n + 1) [] (Nat.lt_succ_self n)]
    simp [List.asString]

theorem digitChar_inj_lt : ∀ a < 10, ∀ b < 10, Nat.digitChar a = Nat.digitChar b → a = b := by
  decide

theorem digitChar_ne_underscore : ∀ a < 10, Nat.digitChar a ≠ '_' := by
  decide

theorem decDigits_no_underscore (n : Nat) : '_' ∉ decDigits n := by
  unfold decDigits
  split
  · decide
  · intro hmem
    rw [List.mem_reverse, List.mem_map] at hmem
    obtain ⟨d, hd, hchar⟩ := hmem
    exact digitChar_ne_underscore d (Nat.digits_lt_base (by norm_num) hd) hchar

theorem map_digitChar_inj : ∀ (l1 l2 : List Nat), (∀ x ∈ l1, x < 10) → (∀ x ∈ l2, x < 10) →
    l1.map Nat.digitChar = l2.map Nat.digitChar → l1 = l2 := by
  intro l1
  induction l1 with
  | nil => intro l2 _ _ h; cases l2 <;> simp_all
  | cons a l ih =>
    intro l2 h1 h2 h
    cases l2 with
    | nil => simp_all
    | cons b m =>
      simp only [List.map_cons, List.cons.injEq] at h
      have ha : a = b := digitChar_inj_lt a (h1 a (by simp)) b (h2 b (by simp)) h.1
      have := ih m (fun x hx => h1 x (by simp [hx])) (fun x hx => h2 x (by simp [hx])) h.2
      simp [ha, this]

theorem decDigits_inj {n m : Nat} (h : decDigits n = decDigits m) : n = m := by
  unfold decDigits at h
  by_cases hn : n = 0 <;> by_cases hm : m = 0
  · simp [hn, hm]
  · rw [if_pos hn, if_neg hm] at h
    have hrev : (Nat.digits 10 m).map Nat.digitChar = ['0'] := by
      have := congrArg List.reverse h
      simpa using this.symm
    have hm1 : Nat.digits 10 m = [0] := by
      rcases hdig : Nat.digits 10 m with _ | ⟨d, rest⟩
      · rw [hdig] at hrev; simp at hrev
      · rw [hdig] at hrev
        rcases rest with _ | ⟨e, rest2⟩
        · simp only [List.map_cons, List.map_nil, List.cons.injEq] at hrev
          have hd10 : d < 10 := Nat.digits_lt_base (by norm_num) (by rw [hdig]; simp)
          have : d = 0 := digitChar_inj_lt d hd10 0 (by norm_num) (by simpa using hrev.1)
          simp [this]
        · simp at hrev
    have := congrArg (Nat.ofDigits 10) hm1
    rw [Nat.ofDigits_digits] at this
    simp [Nat.ofDigits] at this
    omega
  · rw [if_neg hn, if_pos hm] at h
    have hrev : (Nat.digits 10 n).map Nat.digitChar = ['0'] := by
      have := congrArg List.reverse h
      simpa using this
    have hn1 : Nat.digits 10 n = [0] := by
      rcases hdig : Nat.digits 10 n with _ | ⟨d, rest⟩
      · rw [hdig] at hrev; simp at hrev
      · rw [hdig] at hrev
        rcases rest with _ | ⟨e, rest2⟩
        · simp only [List.map_cons, List.map_nil, List.cons.injEq] at hrev
          have hd10 : d < 10 := Nat.digits_lt_base (by norm_num) (by rw [hdig]; simp)
          have : d = 0 := digitChar_inj_lt d hd10 0 (by norm_num) (by simpa using hrev.1)
          simp [this]
        · simp at hrev
    have := congrArg (Nat.ofDigits 10) hn1
    rw [Nat.ofDigits_digits] at this
    simp [Nat.ofDigits] at this
    omega
  · rw [if_neg hn, if_neg hm] at h
    have hrev := congrArg List.reverse h
    simp only [List.reverse_reverse] at hrev
    have := map_digitChar_inj _ _
      (fun x hx => Nat.digits_lt_base (by norm_num) hx)
      (fun x hx => Nat.digits_lt_base (by norm_num) hx) hrev
    have := congrArg (Nat.ofDigits 10) this
    rwa [Nat.ofDigits_digits, Nat.ofDigits_digits] at this

theorem repr_data_inj {n m : Nat} (h : (Nat.repr n).data = (Nat.repr m).data) : n = m :=
  decDigits_inj (by rw [← repr_data, ← repr_data, h])

theorem repr_no_underscore (n : Nat) : '_' ∉ (Nat.repr n).data := by
  rw [repr_data]; exact decDigits_no_underscore n

theorem append_cons_underscore_inj :
    ∀ (a b x y : List Char), '_' ∉ a → '_' ∉ b →
      a ++ '_' :: x = b ++ '_' :: y → a = b ∧ x = y := by
  intro a
  induction a with
  | nil =>
    intro b x y _ hb h
    cases b with
    | nil => simpa using h
    | cons c cs =>
      simp only [List.nil_append, List.cons_append, List.cons.injEq] at h
      exact absurd (by simp [← h.1]) hb
  | cons c cs ih =>
    intro b x y ha hb h
    cases b with
    | nil =>
      simp only [List.nil_append, List.cons_append, List.cons.injEq] at h
      exact absurd (by simp [h.1]) ha
    | cons d ds =>
      simp only [List.cons_append, List.cons.injEq] at h
      have := ih ds x y (fun hc => ha (by simp [hc])) (fun hc => hb (by simp [hc])) h.2
      simp [h.1, this.1, this.2]

theorem str_data_append (s t : String) : (s ++ t).data = s.data ++ t.data := rfl

theorem mkSegId_inj {p i t p' i' t' : Nat} (h : mkSegId p i t = mkSegId p' i' t') :
    p = p' ∧ i = i' ∧ t = t' := by
  have hd := congrArg String.data h
  simp only [mkSegId, str_data_append] at hd
  have hd2 : (Nat.repr p).data ++ '_' :: ((Nat.repr i).data ++ '_' :: (Nat.repr t).data) =
      (Nat.repr p').data ++ '_' :: ((Nat.repr i').data ++ '_' :: (Nat.repr t').data) := by
    simpa using hd
  obtain ⟨h1, h2⟩ := append_cons_underscore_inj _ _ _ _
    (repr_no_underscore p) (repr_no_underscore p') hd2
  obtain ⟨h3, h4⟩ := append_cons_underscore_inj _ _ _ _
    (repr_no_underscore i) (repr_no_underscore i') h2
  exact ⟨repr_data_inj h1, repr_data_inj h3, repr_data_inj h4⟩

/-! ### C1 — page-replacement merge -/

/-- C1: merging a page's newly normalized segments into the collection
(`App.tsx` 159–162, the single functional `setSegments` update embedded as
`mergePage`) removes every existing segment whose `pageIndex` equals the page
and appends the new segments in the order given (first conjunct, the exact
shape of the one atomic update); afterwards the segments carrying that page
index are exactly the new set (second conjunct: at most one live segment set
per page); and every segment of any other page is left unchanged (third
conjunct: cross-page isolation). -/
theorem mergePage_page_replacement (P : Nat) (newSegments prev : List PaperSegment)
    (hnew : ∀ s ∈ newSegments, s.pageIndex = P) :
    mergePage P newSegments prev =
      prev.filter (fun s => s.pageIndex != P) ++ newSegments ∧
    (mergePage P newSegments prev).filter (fun s => s.pageIndex == P) = newSegments ∧
    ∀ Q, Q ≠ P → (mergePage P newSegments prev).filter (fun s => s.pageIndex == Q) =
      prev.filter (fun s => s.pageIndex == Q) := by
  refine ⟨rfl, ?_, ?_⟩
  · rw [mergePage, List.filter_append]
    have h1 : (prev.filter (fun s => s.pageIndex != P)).filter (fun s => s.pageIndex == P) = [] := by
      rw [List.filter_filter]
      apply List.filter_eq_nil_iff.mpr
      intro a _
      simp [bne]
    have h2 : newSegments.filter (fun s => s.pageIndex == P) = newSegments := by
      apply List.filter_eq_self.mpr
      intro a ha
      simp [hnew a ha]
    rw [h1, h2, List.nil_append]
  · intro Q hQ
    rw [mergePage, List.filter_append]
    have h1 : newSegments.filter (fun s => s.pageIndex == Q) = [] := by
      apply List.filter_eq_nil_iff.mpr
      intro a ha
      simp [hnew a ha]
      exact fun h => hQ h.symm
    have h2 : (prev.filter (fun s => s.pageIndex != P)).filter (fun s => s.pageIndex == Q) =
        prev.filter (fun s => s.pageIndex == Q) := by
      rw [List.filter_filter]
      apply List.filter_congr
      intro a _
      cases h : (a.pageIndex == Q) <;> simp [bne, h]
      intro hP
      rw [hP] at h
      simp at h
      exact hQ h.symm
    rw [h1, h2, List.append_nil]

/-- Witness for C1 at a concrete input: merging `[sampleSegment2]` (page 2)
into a collection holding only a page-1 segment. -/
theorem mergePage_page_replacement_witness :
    (∀ s ∈ [sampleSegment2], s.pageIndex = 2) ∧
    (mergePage 2 [sampleSegment2] [sampleSegment]).filter (fun s => s.pageIndex == 2) =
      [sampleSegment2] ∧
    (mergePage 2 [sampleSegment2] [sampleSegment]).filter (fun s => s.pageIndex == 1) =
      [sampleSegment].filter (fun s => s.pageIndex == 1) :=
  ⟨by decide,
   (mergePage_page_replacement 2 [sampleSegment2] [sampleSegment] (by decide)).2.1,
   (mergePage_page_replacement 2 [sampleSegment2] [sampleSegment] (by decide)).2.2 1 (by decide)⟩

/-! ### C2 — malformed-response containment -/

/-- C2: for any page index and any raw response that fails to parse even
after stripping code fences (`parse (stripCodeFences rawText) = none`), the
per-page normalization returns exactly the one-element error page — one
segment of type TEXT carrying the 1-based page index with the human-readable
error markers as `original`/`translated` — and, being a total Lean function,
it does not throw. -/
theorem normalizeResponse_malformed_containment (parse : String → Option ParsedDoc)
    (rawText : String) (pageIndex : Nat) (now : Nat → Nat)
    (h : parse (stripCodeFences rawText) = none) :
    normalizeResponse parse rawText pageIndex now = [errorSegment pageIndex] ∧
    (normalizeResponse parse rawText pageIndex now).length = 1 ∧
    ∀ s ∈ normalizeResponse parse rawText pageIndex now,
      s.type = SegmentType.TEXT ∧ s.pageIndex = pageIndex + 1 ∧
      s.original = "[Error processing Page " ++ Nat.repr (pageIndex + 1) ++ "]" ∧
      s.translated =
        "[페이지 " ++ Nat.repr (pageIndex + 1) ++ " 처리 중 오류가 발생했습니다. 재시도 해주세요.]" := by
  have hmain : normalizeResponse parse rawText pageIndex now = [errorSegment pageIndex] := by
    unfold normalizeResponse
    rw [h]
  refine ⟨hmain, by rw [hmain]; rfl, ?_⟩
  intro s hs
  rw [hmain] at hs
  simp only [List.mem_singleton] at hs
  subst hs
  exact ⟨rfl, rfl, rfl, rfl⟩

/-- Witness for C2 at a concrete input: a parse oracle that always fails on
the raw text "garbage". -/
theorem normalizeResponse_malformed_containment_witness :
    ((fun _ => none : String → Option ParsedDoc) (stripCodeFences "garbage") = none) ∧
    normalizeResponse (fun _ => none) "garbage" 0 (fun _ => 0) = [errorSegment 0] :=
  ⟨rfl, (normalizeResponse_malformed_containment (fun _ => none) "garbage" 0 (fun _ => 0) rfl).1⟩

/-! ### C7 — segment-id uniqueness (corrected) -/

/-- C7 counterexample: two failing analyses of the same page (0-based page
index 0) with different raw responses and different `Date.now()` oracles both
produce a segment with the identical id `"err_0"` — the substituted error
segment's id has no uniqueness token, so segments produced across repeated
re-analysis of the same page can share an id, contrary to the claim (which
explicitly includes the substituted error segment). -/
theorem errorSegment_id_collision_cex :
    (normalizeResponse (fun _ => none) "bad" 0 (fun _ => 1000)).map PaperSegment.id =
      ["err_0"] ∧
    (normalizeResponse (fun _ => none) "worse" 0 (fun _ => 2000)).map PaperSegment.id =
      ["err_0"] := by
  constructor <;> decide

/-- C7 amended: ids synthesized for successfully parsed items combine the
page index, the item position and the `Date.now()` token
(`pg<page>_<idx>_<now>`) and this encoding is injective, hence
(1) the ids produced by any single normalization call are pairwise distinct
(this also covers the error branch, which produces a single id), and
(2) parsed-item ids from two calls whose timestamp oracles never agree are
disjoint — across pages, positions, and re-analyses; but
(3) a call whose parse fails yields the fixed id `err_<page>` carrying no
timestamp, so repeated failing re-analyses of the same page reuse the same
id verbatim. -/
theorem normalizeResponse_id_uniqueness :
    (∀ (parse : String → Option ParsedDoc) rawText pageIndex now,
      ((normalizeResponse parse rawText pageIndex now).map PaperSegment.id).Nodup) ∧
    (∀ (parse parse2 : String → Option ParsedDoc) rawText rawText2
        pageIndex pageIndex2 now now2,
      (∀ i j, now i ≠ now2 j) →
      (parse (stripCodeFences rawText)).isSome = true →
      (parse2 (stripCodeFences rawText2)).isSome = true →
      ∀ a ∈ (normalizeResponse parse rawText pageIndex now).map PaperSegment.id,
        a ∉ (normalizeResponse parse2 rawText2 pageIndex2 now2).map PaperSegment.id) ∧
    (∀ (parse : String → Option ParsedDoc) rawText pageIndex now,
      parse (stripCodeFences rawText) = none →
      (normalizeResponse parse rawText pageIndex now).map PaperSegment.id =
        [errSegId pageIndex]) := by
  have haux : ∀ (l : List RawSegment) (h : Nat → String)
      (f : Nat → RawSegment → PaperSegment), (∀ i s, (f i s).id = h i) →
      ((l.mapIdx f).map PaperSegment.id) = (List.range l.length).map h := by
    intro l
    induction l with
    | nil => intro h f _; rfl
    | cons a l ih =>
      intro h f hf
      rw [List.mapIdx_cons, List.map_cons, hf 0 a, List.length_cons,
        List.range_succ_eq_map, List.map_cons, List.map_map]
      exact congrArg (List.cons _)
        (ih (fun i => h (i + 1)) (fun i s => f (i + 1) s) (fun i s => hf (i + 1) s))
  have hids : ∀ (parse : String → Option ParsedDoc) rawText pageIndex now doc,
      parse (stripCodeFences rawText) = some doc →
      (normalizeResponse parse rawText pageIndex now).map PaperSegment.id =
        (List.range (doc.segments.getD []).length).map
          (fun i => mkSegId pageIndex i (now i)) := by
    intro parse rawText pageIndex now doc hdoc
    have hnorm : normalizeResponse parse rawText pageIndex now =
        (doc.segments.getD []).mapIdx (normalizeItem pageIndex now) := by
      unfold normalizeResponse
      rw [hdoc]
    rw [hnorm]
    exact haux _ _ _ (fun i s => rfl)
  refine ⟨?_, ?_, ?_⟩
  · intro parse rawText pageIndex now
    rcases hp : parse (stripCodeFences rawText) with _ | doc
    · have : normalizeResponse parse rawText pageIndex now = [errorSegment pageIndex] := by
        unfold normalizeResponse; rw [hp]
      rw [this]
      simp
    · rw [hids parse rawText pageIndex now doc hp]
      apply List.Nodup.map ?_ (List.nodup_range _)
      intro i j hij
      exact (mkSegId_inj hij).2.1
  · intro parse parse2 rawText rawText2 pageIndex pageIndex2 now now2 hclock h1 h2 a ha hb
    rcases hp1 : parse (stripCodeFences rawText) with _ | doc1
    · rw [hp1] at h1; simp at h1
    rcases hp2 : parse2 (stripCodeFences rawText2) with _ | doc2
    · rw [hp2] at h2; simp at h2
    rw [hids parse rawText pageIndex now doc1 hp1] at ha
    rw [hids parse2 rawText2 pageIndex2 now2 doc2 hp2] at hb
    rw [List.mem_map] at ha hb
    obtain ⟨i, _, hi⟩ := ha
    obtain ⟨j, _, hj⟩ := hb
    exact hclock i j (mkSegId_inj (hi.trans hj.symm)).2.2
  · intro parse rawText pageIndex now h
    unfold normalizeResponse
    rw [h]
    rfl

/-- Witness for C7's amended statement at concrete inputs: a two-item parse
with timestamp 7 has pairwise-distinct ids; its first id does not occur in a
run for another page with timestamp 9; and a failing parse yields exactly
`errSegId 4`. -/
theorem normalizeResponse_id_uniqueness_witness :
    ((normalizeResponse sampleParse "x" 3 (fun _ => 7)).map PaperSegment.id).Nodup ∧
    mkSegId 3 0 7 ∉ (normalizeResponse sampleParse "x" 5 (fun _ => 9)).map PaperSegment.id ∧
    (normalizeResponse (fun _ => none) "y" 4 (fun _ => 0)).map PaperSegment.id =
      [errSegId 4] :=
  ⟨normalizeResponse_id_uniqueness.1 sampleParse "x" 3 (fun _ => 7),
   normalizeResponse_id_uniqueness.2.1 sampleParse sampleParse "x" "x" 3 5
     (fun _ => 7) (fun _ => 9) (fun i j => (by decide : (7:Nat) ≠ 9)) rfl rfl
     (mkSegId 3 0 7) (by decide),
   normalizeResponse_id_uniqueness.2.2 (fun _ => none) "y" 4 (fun _ => 0) rfl⟩

/-! ### Batch-controller loop characterizations -/

theorem analyzePageContent_ok (parse : String → Option ParsedDoc) (o : PageOutcome)
    (pageIndex : Nat) (now : Nat → Nat) (h : o ≠ PageOutcome.throwClient) :
    (analyzePageContent parse o pageIndex now).isOk = true := by
  cases o with
  | throwClient => exact absurd rfl h
  | genFail => rfl
  | raw text => rfl

theorem processPages_all_ok (parse : String → Option ParsedDoc)
    (pageOutcome : Nat → PageOutcome) (clock : Nat → Nat → Nat) (n lp0 : Nat) :
    ∀ (pages : List PageImage) (i : Nat) (segs : List PaperSegment) (lp : Nat),
      (∀ img ∈ pages, pageOutcome (img.pageIndex - 1) ≠ PageOutcome.throwClient) →
      processPages parse pageOutcome clock n lp0 i pages segs lp =
        .done (mergeRun parse pageOutcome clock i pages segs)
              (pages.foldl (fun _ img => max lp0 img.pageIndex) lp)
              (loopTrace n i pages.length) := by
  intro pages
  induction pages with
  | nil => intro i segs lp _; rfl
  | cons img rest ih =>
    intro i segs lp hok
    have hhead := hok img (by simp)
    cases ho : pageOutcome (img.pageIndex - 1) with
    | throwClient => exact absurd ho hhead
    | genFail =>
      simp only [processPages, mergeRun, ho, analyzePageContent]
      rw [ih (i + 1) _ _ (fun im hm => hok im (by simp [hm]))]
      simp only [List.length_cons, List.foldl_cons, loopTrace]
    | raw text =>
      simp only [processPages, mergeRun, ho, analyzePageContent]
      rw [ih (i + 1) _ _ (fun im hm => hok im (by simp [hm]))]
      simp only [List.length_cons, List.foldl_cons, loopTrace]

theorem processPages_throw (parse : String → Option ParsedDoc)
    (pageOutcome : Nat → PageOutcome) (clock : Nat → Nat → Nat) (n lp0 : Nat) :
    ∀ (k : Nat) (pages : List PageImage) (i : Nat) (segs : List PaperSegment) (lp : Nat)
      (hk : k < pages.length),
      (∀ j (hj : j < pages.length), j < k →
        pageOutcome ((pages.get ⟨j, hj⟩).pageIndex - 1) ≠ PageOutcome.throwClient) →
      pageOutcome ((pages.get ⟨k, hk⟩).pageIndex - 1) = PageOutcome.throwClient →
      processPages parse pageOutcome clock n lp0 i pages segs lp =
        .failed (mergeRun parse pageOutcome clock i (pages.take k) segs)
                ((pages.take k).foldl (fun _ img => max lp0 img.pageIndex) lp)
                (loopTrace n i (k + 1)) := by
  intro k
  induction k with
  | zero =>
    intro pages i segs lp hk hok hthrow
    match pages, hk with
    | img :: rest, _ =>
      simp only [List.get] at hthrow
      simp only [processPages, hthrow, analyzePageContent, List.take_zero, mergeRun,
        List.foldl_nil, loopTrace]
  | succ k ih =>
    intro pages i segs lp hk hok hthrow
    match pages, hk with
    | img :: rest, hk =>
      have hhead : pageOutcome (img.pageIndex - 1) ≠ PageOutcome.throwClient := by
        have := hok 0 (by simp) (Nat.succ_pos k)
        simpa using this
      have hrest : k < rest.length := Nat.lt_of_succ_lt_succ hk
      have hokr : ∀ j (hj : j < rest.length), j < k →
          pageOutcome ((rest.get ⟨j, hj⟩).pageIndex - 1) ≠ PageOutcome.throwClient := by
        intro j hj hjk
        have := hok (j + 1) (by simpa using Nat.succ_lt_succ hj) (Nat.succ_lt_succ hjk)
        simpa using this
      have hthrowr : pageOutcome ((rest.get ⟨k, hrest⟩).pageIndex - 1) =
          PageOutcome.throwClient := by
        simpa using hthrow
      cases ho : pageOutcome (img.pageIndex - 1) with
      | throwClient => exact absurd ho hhead
      | genFail =>
        simp only [processPages, ho, analyzePageContent]
        rw [ih rest (i + 1) _ _ hrest hokr hthrowr]
        simp only [List.take_succ_cons, mergeRun, ho, analyzePageContent,
          List.foldl_cons, loopTrace]
      | raw text =>
        simp only [processPages, ho, analyzePageContent]
        rw [ih rest (i + 1) _ _ hrest hokr hthrowr]
        simp only [List.take_succ_cons, mergeRun, ho, analyzePageContent,
          List.foldl_cons, loopTrace]

theorem jsRound_mono {a b c : Nat} (h : a ≤ b) : jsRound a c ≤ jsRound b c :=
  Nat.div_le_div_right (by omega)

theorem jsRound_80_le (k n : Nat) (hn : 0 < n) (hk : k ≤ n) : jsRound (k * 80) n ≤ 80 := by
  unfold jsRound
  rw [Nat.div_le_iff_le_mul_add_pred (by omega)]
  omega

theorem loopTrace_chain (n : Nat) : ∀ (m i : Nat), List.Chain' (· ≤ ·) (loopTrace n i m) := by
  intro m
  induction m with
  | zero => intro i; simp [loopTrace]
  | succ m ih =>
    intro i
    rw [loopTrace]
    rw [List.chain'_cons']
    refine ⟨?_, ih (i + 1)⟩
    intro y hy
    cases m with
    | zero => simp [loopTrace] at hy
    | succ m =>
      rw [loopTrace] at hy
      simp only [List.head?_cons, Option.mem_def, Option.some.injEq] at hy
      subst hy
      have := jsRound_mono (c := n) (show (i + 1) * 80 ≤ (i + 1 + 1) * 80 by omega)
      omega

theorem loopTrace_mem_ge (n : Nat) : ∀ (m i : Nat), ∀ x ∈ loopTrace n i m, 10 ≤ x := by
  intro m
  induction m with
  | zero => intro i x hx; simp [loopTrace] at hx
  | succ m ih =>
    intro i x hx
    rw [loopTrace] at hx
    rcases List.mem_cons.mp hx with h | h
    · omega
    · exact ih (i + 1) x h

theorem loopTrace_mem_le (n : Nat) (hn : 0 < n) :
    ∀ (m i : Nat), i + m ≤ n → ∀ x ∈ loopTrace n i m, x ≤ 90 := by
  intro m
  induction m with
  | zero => intro i _ x hx; simp [loopTrace] at hx
  | succ m ih =>
    intro i hin x hx
    rw [loopTrace] at hx
    rcases List.mem_cons.mp hx with h | h
    · subst h
      have := jsRound_80_le (i + 1) n hn (by omega)
      omega
    · exact ih (i + 1) (by omega) x h

theorem chain_batch_trace (n : Nat) (hn : 0 < n) (mt : List Nat)
    (hmt : mt = [] ∨ mt = [10]) :
    List.Chain' (· ≤ ·) ([5] ++ mt ++ loopTrace n 0 n ++ [100]) ∧
    ([5] ++ mt ++ loopTrace n 0 n ++ [100]).getLast? = some 100 := by
  have hL : List.Chain' (· ≤ ·) (loopTrace n 0 n ++ [100]) := by
    apply List.Chain'.append (loopTrace_chain n n 0) (List.chain'_singleton 100)
    intro x hx y hy
    simp only [List.head?_cons, Option.mem_def, Option.some.injEq] at hy
    subst hy
    have := loopTrace_mem_le n hn n 0 (by omega) x (List.mem_of_mem_getLast? hx)
    omega
  have hhead : ∀ y ∈ (loopTrace n 0 n ++ [100]).head?, 10 ≤ y := by
    intro y hy
    have hmem : y ∈ loopTrace n 0 n ++ [100] := List.mem_of_mem_head? hy
    rcases List.mem_append.mp hmem with h | h
    · exact loopTrace_mem_ge n n 0 y h
    · simp at h; omega
  constructor
  · rcases hmt with h | h <;> subst h
    · simp only [List.append_nil, List.nil_append, List.singleton_append,
        List.cons_append]
      rw [List.chain'_cons']
      exact ⟨fun y hy => by have := hhead y hy; omega, hL⟩
    · simp only [List.singleton_append, List.cons_append, List.nil_append]
      rw [List.chain'_cons, List.chain'_cons']
      exact ⟨by omega, fun y hy => hhead y hy, hL⟩
  · rw [show [5] ++ mt ++ loopTrace n 0 n ++ [100] =
      ([5] ++ mt ++ loopTrace n 0 n) ++ [100] by simp]
    exact List.getLast?_concat _

theorem executeTranslation_done_eq (env : TransEnv) (startPage endPage : Nat)
    (isAppend : Bool) (s0 : AppState) (imgs pages : List PageImage)
    (segs : List PaperSegment) (lp : Nat) (t : List Nat)
    (hfile : env.hasFile = true)
    (hrender : env.render = Except.ok imgs)
    (hpages : pages = imgs.filter fun p => startPage ≤ p.pageIndex && p.pageIndex ≤ endPage)
    (hne : pages.isEmpty = false)
    (hdone : processPages env.parse env.pageOutcome env.clock pages.length
        s0.lastProcessedPage 0 pages (if !isAppend then [] else s0.segments)
        s0.lastProcessedPage = .done segs lp t) :
    executeTranslation env startPage endPage isAppend s0 =
      { state := { s0 with
                    segments := segs
                    metadata := (metadataStep env isAppend s0 (imgs.headD { pageIndex := 1 })).1
                    totalPages := max s0.totalPages imgs.length
                    lastProcessedPage := lp
                    currentActiveRange :=
                      if isAppend then
                        s0.currentActiveRange ++ ", " ++
                          (Nat.repr startPage ++ "-" ++ Nat.repr endPage)
                      else Nat.repr startPage ++ "-" ++ Nat.repr endPage
                    progress := 100
                    isProcessing := false
                    showPdfWindow := true }
        alerts := []
        trace := [5] ++ (metadataStep env isAppend s0 (imgs.headD { pageIndex := 1 })).2
                  ++ t ++ [100] } := by
  unfold executeTranslation
  rw [hrender]
  simp only [hfile, Bool.not_true, Bool.false_eq_true, if_false]
  rw [← hpages, hne, hdone]
  simp

theorem executeTranslation_failed_eq (env : TransEnv) (startPage endPage : Nat)
    (isAppend : Bool) (s0 : AppState) (imgs pages : List PageImage)
    (segs : List PaperSegment) (lp : Nat) (t : List Nat)
    (hfile : env.hasFile = true)
    (hrender : env.render = Except.ok imgs)
    (hpages : pages = imgs.filter fun p => startPage ≤ p.pageIndex && p.pageIndex ≤ endPage)
    (hne : pages.isEmpty = false)
    (hfail : processPages env.parse env.pageOutcome env.clock pages.length
        s0.lastProcessedPage 0 pages (if !isAppend then [] else s0.segments)
        s0.lastProcessedPage = .failed segs lp t) :
    executeTranslation env startPage endPage isAppend s0 =
      { state := { s0 with
                    segments := segs
                    metadata := (metadataStep env isAppend s0 (imgs.headD { pageIndex := 1 })).1
                    totalPages := max s0.totalPages imgs.length
                    lastProcessedPage := lp
                    progress := 0
                    isProcessing := false
                    showPdfWindow := true }
        alerts := ["Failed to process PDF."]
        trace := [5] ++ (metadataStep env isAppend s0 (imgs.headD { pageIndex := 1 })).2
                  ++ t ++ [0] } := by
  unfold executeTranslation
  rw [hrender]
  simp only [hfile, Bool.not_true, Bool.false_eq_true, if_false]
  rw [← hpages, hne, hfail]
  simp

theorem metadataStep_trace (env : TransEnv) (isAppend : Bool) (s0 : AppState)
    (firstImage : PageImage) :
    (metadataStep env isAppend s0 firstImage).2 = [] ∨
    (metadataStep env isAppend s0 firstImage).2 = [10] := by
  unfold metadataStep
  split
  · cases analyzePaperMetadata (env.metaFetch firstImage.base64) <;> simp
  · simp

/-! ### C6 — progress monotonicity -/

/-- C6: within one batch that completes without a batch-fatal error (render
succeeded, the filtered page list is nonempty, and no per-page call throws),
the emitted progress sequence — initial 5, the optional metadata step at 10,
the per-page values `10 + round(80·(i+1)/n)` scaled into the 10–90 sub-range,
then 100 — is non-decreasing at every step, and the final emitted value and
the final stored progress are exactly 100. -/
theorem executeTranslation_progress_monotone (env : TransEnv) (startPage endPage : Nat)
    (isAppend : Bool) (s0 : AppState) (imgs pages : List PageImage)
    (hfile : env.hasFile = true)
    (hrender : env.render = Except.ok imgs)
    (hpages : pages = imgs.filter fun p => startPage ≤ p.pageIndex && p.pageIndex ≤ endPage)
    (hne : pages ≠ [])
    (hok : ∀ img ∈ pages, env.pageOutcome (img.pageIndex - 1) ≠ PageOutcome.throwClient) :
    List.Chain' (· ≤ ·) (executeTranslation env startPage endPage isAppend s0).trace ∧
    (executeTranslation env startPage endPage isAppend s0).trace.getLast? = some 100 ∧
    (executeTranslation env startPage endPage isAppend s0).state.progress = 100 := by
  have hempties : pages.isEmpty = false := by
    cases pages with
    | nil => exact absurd rfl hne
    | cons a l => rfl
  have hrun := executeTranslation_done_eq env startPage endPage isAppend s0 imgs pages
    _ _ _ hfile hrender hpages hempties
    (processPages_all_ok env.parse env.pageOutcome env.clock pages.length s0.lastProcessedPage
      pages 0 (if !isAppend then [] else s0.segments) s0.lastProcessedPage hok)
  rw [hrun]
  have hn : 0 < pages.length := List.length_pos.mpr hne
  have hchain := chain_batch_trace pages.length hn
    ((metadataStep env isAppend s0 (imgs.headD { pageIndex := 1 })).2)
    (metadataStep_trace env isAppend s0 _)
  exact ⟨hchain.1, hchain.2, rfl⟩

/-- Witness for C6 at a concrete input: a fresh two-page batch where every
page's model call fails (degrading to error segments) but nothing throws. -/
theorem executeTranslation_progress_monotone_witness :
    List.Chain' (· ≤ ·) (executeTranslation twoPageEnv 1 2 false sampleState).trace ∧
    (executeTranslation twoPageEnv 1 2 false sampleState).trace.getLast? = some 100 ∧
    (executeTranslation twoPageEnv 1 2 false sampleState).state.progress = 100 :=
  executeTranslation_progress_monotone twoPageEnv 1 2 false sampleState
    [{ pageIndex := 1 }, { pageIndex := 2 }] [{ pageIndex := 1 }, { pageIndex := 2 }]
    rfl rfl (by decide) (by decide) (by decide)

/-! ### C5 — partial failure retains earlier merges -/

/-- C5: if the per-page loop throws at iteration `k` (the first `k` pages'
calls did not throw, page `k`'s did), the final collection is exactly the
result of the `k` successful page-replacement merges applied in order to the
loop's starting collection — every segment already merged for earlier pages
in the batch is retained unchanged — the progress value is reset to 0, and
exactly the single user-facing notice "Failed to process PDF." is raised.
The last conjunct is the absorption guarantee: any per-page outcome other
than a thrown client-construction error (in particular a malformed model
response) yields a normal `Except.ok` result and so never aborts the batch. -/
theorem executeTranslation_loop_failure (env : TransEnv) (startPage endPage : Nat)
    (isAppend : Bool) (s0 : AppState) (imgs pages : List PageImage) (k : Nat)
    (hfile : env.hasFile = true)
    (hrender : env.render = Except.ok imgs)
    (hpages : pages = imgs.filter fun p => startPage ≤ p.pageIndex && p.pageIndex ≤ endPage)
    (hk : k < pages.length)
    (hok : ∀ j (hj : j < pages.length), j < k →
      env.pageOutcome ((pages.get ⟨j, hj⟩).pageIndex - 1) ≠ PageOutcome.throwClient)
    (hthrow : env.pageOutcome ((pages.get ⟨k, hk⟩).pageIndex - 1) = PageOutcome.throwClient) :
    (executeTranslation env startPage endPage isAppend s0).state.segments =
      mergeRun env.parse env.pageOutcome env.clock 0 (pages.take k)
        (if !isAppend then [] else s0.segments) ∧
    (executeTranslation env startPage endPage isAppend s0).state.progress = 0 ∧
    (executeTranslation env startPage endPage isAppend s0).alerts =
      ["Failed to process PDF."] ∧
    (∀ (o : PageOutcome) (p : Nat) (now : Nat → Nat), o ≠ PageOutcome.throwClient →
      (analyzePageContent env.parse o p now).isOk = true) := by
  have hempties : pages.isEmpty = false := by
    cases pages with
    | nil => simp at hk
    | cons a l => rfl
  have hrun := executeTranslation_failed_eq env startPage endPage isAppend s0 imgs pages
    _ _ _ hfile hrender hpages hempties
    (processPages_throw env.parse env.pageOutcome env.clock pages.length s0.lastProcessedPage
      k pages 0 (if !isAppend then [] else s0.segments) s0.lastProcessedPage hk hok hthrow)
  rw [hrun]
  exact ⟨rfl, rfl, rfl, fun o p now h => analyzePageContent_ok env.parse o p now h⟩

/-- Witness for C5 at a concrete input: a fresh two-page batch where page 1
degrades to an error segment and page 2's call throws; the merged page-1
segment is retained, progress is 0, and one notice is raised. -/
theorem executeTranslation_loop_failure_witness :
    (executeTranslation throwOnSecondEnv 1 2 false sampleState).state.segments =
      mergeRun throwOnSecondEnv.parse throwOnSecondEnv.pageOutcome throwOnSecondEnv.clock 0
        ([{ pageIndex := 1 }, { pageIndex := 2 }].take 1) [] ∧
    (executeTranslation throwOnSecondEnv 1 2 false sampleState).state.progress = 0 ∧
    (executeTranslation throwOnSecondEnv 1 2 false sampleState).alerts =
      ["Failed to process PDF."] :=
  ⟨(executeTranslation_loop_failure throwOnSecondEnv 1 2 false sampleState
      [{ pageIndex := 1 }, { pageIndex := 2 }] [{ pageIndex := 1 }, { pageIndex := 2 }] 1
      rfl rfl (by decide) (by decide) (by decide) (by decide)).1,
   (executeTranslation_loop_failure throwOnSecondEnv 1 2 false sampleState
      [{ pageIndex := 1 }, { pageIndex := 2 }] [{ pageIndex := 1 }, { pageIndex := 2 }] 1
      rfl rfl (by decide) (by decide) (by decide) (by decide)).2.1,
   (executeTranslation_loop_failure throwOnSecondEnv 1 2 false sampleState
      [{ pageIndex := 1 }, { pageIndex := 2 }] [{ pageIndex := 1 }, { pageIndex := 2 }] 1
      rfl rfl (by decide) (by decide) (by decide) (by decide)).2.2.1⟩

/-! ### C4 — abort on render failure / empty range (corrected) -/

/-- C4 counterexample: on a fresh (non-append) invocation, `executeTranslation`
runs `setSegments([])` *before* rasterizing (App.tsx line 120), so when the
rasterizer then fails, the Segment Collection is left empty rather than
containing what it held before the invocation — clearing *has* occurred, so
the claimed "no state mutation: exactly the segments it contained before"
is false at this concrete input. -/
theorem executeTranslation_abort_clears_cex :
    (executeTranslation renderFailEnv 1 2 false sampleState).state.segments = [] ∧
    sampleState.segments ≠ [] ∧
    (executeTranslation renderFailEnv 1 2 false sampleState).state.segments ≠
      sampleState.segments := by
  exact ⟨rfl, by decide, by decide⟩

/-- C4 amended: if rasterization fails or the filtered page list is empty,
the operation aborts with exactly one user-facing alert, performs no merge
and touches neither metadata nor the watermark — and the Segment Collection
is left at the prior contents when `isAppend` is true, but at `[]` on a
fresh invocation, because a fresh batch clears the collection at batch start
before rasterizing. -/
theorem executeTranslation_abort_no_merge (env : TransEnv) (startPage endPage : Nat)
    (isAppend : Bool) (s0 : AppState)
    (hfile : env.hasFile = true)
    (habort : (∃ msg, env.render = Except.error msg) ∨
      (∃ imgs, env.render = Except.ok imgs ∧
        (imgs.filter fun p =>
          startPage ≤ p.pageIndex && p.pageIndex ≤ endPage).isEmpty = true)) :
    (executeTranslation env startPage endPage isAppend s0).state.segments =
      (if isAppend then s0.segments else []) ∧
    (executeTranslation env startPage endPage isAppend s0).alerts.length = 1 ∧
    (executeTranslation env startPage endPage isAppend s0).state.metadata = s0.metadata ∧
    (executeTranslation env startPage endPage isAppend s0).state.lastProcessedPage =
      s0.lastProcessedPage := by
  rcases habort with ⟨msg, hmsg⟩ | ⟨imgs, hrender, hempty⟩
  · unfold executeTranslation
    rw [hmsg]
    simp only [hfile, Bool.not_true, Bool.false_eq_true, if_false]
    cases isAppend <;> simp
  · unfold executeTranslation
    rw [hrender]
    simp only [hfile, Bool.not_true, Bool.false_eq_true, if_false]
    rw [hempty]
    cases isAppend <;> simp

/-- Witness for C4's amended statement at a concrete input: an append-mode
invocation against a failing rasterizer keeps the collection unchanged and
raises one alert. -/
theorem executeTranslation_abort_no_merge_witness :
    renderFailEnv.hasFile = true ∧
    (executeTranslation renderFailEnv 1 2 true sampleState).state.segments =
      sampleState.segments ∧
    (executeTranslation renderFailEnv 1 2 true sampleState).alerts.length = 1 :=
  ⟨rfl,
   (executeTranslation_abort_no_merge renderFailEnv 1 2 true sampleState rfl
     (Or.inl ⟨"bad xref", rfl⟩)).1,
   (executeTranslation_abort_no_merge renderFailEnv 1 2 true sampleState rfl
     (Or.inl ⟨"bad xref", rfl⟩)).2.1⟩

/-! ### C8 — metadata request policy (corrected) -/

/-- C8 counterexample: with metadata unset, a fresh batch whose metadata
*model request* fails (the `genFail` outcome, caught inside
`analyzePaperMetadata`) substitutes the stub titled "Unknown Paper" — not a
record whose title is the file name ("mypaper.pdf" here), contradicting the
claim's description of the substituted record; the file-name stub is used
only when `analyzePaperMetadata` itself throws. -/
theorem metadata_fallback_title_cex :
    (executeTranslation twoPageEnv 1 2 false sampleState).state.metadata =
      some { title := "Unknown Paper", authors := [], year := "", journal := "" } ∧
    twoPageEnv.fileName = "mypaper.pdf" ∧
    (executeTranslation twoPageEnv 1 2 false sampleState).state.metadata ≠
      some { title := twoPageEnv.fileName, authors := [], year := "", journal := "" } := by
  exact ⟨by decide, rfl, by decide⟩

/-- C8 amended: metadata is requested only when it is not yet populated and
the call is not an append batch — otherwise the stored metadata is unchanged
and the whole run is independent of the metadata oracle (first conjunct).
When it is requested (fresh batch, metadata unset), it is keyed by the first
rendered bitmap (page 1): a failed model request (caught inside the helper)
stores the "Unknown Paper" stub with empty authors, and only a throw from
the helper itself stores the file-name-titled stub with empty authors
(second conjunct); in both cases the pipeline does not abort: the resulting
collection and alerts are independent of the metadata outcome (third
conjunct). -/
theorem metadata_request_policy (env : TransEnv) (startPage endPage : Nat)
    (isAppend : Bool) (s0 : AppState) (imgs pages : List PageImage)
    (hfile : env.hasFile = true)
    (hrender : env.render = Except.ok imgs)
    (hpages : pages = imgs.filter fun p => startPage ≤ p.pageIndex && p.pageIndex ≤ endPage)
    (hne : pages.isEmpty = false) :
    ((s0.metadata.isSome = true ∨ isAppend = true) →
      (executeTranslation env startPage endPage isAppend s0).state.metadata = s0.metadata ∧
      ∀ mf, executeTranslation { env with metaFetch := mf } startPage endPage isAppend s0 =
        executeTranslation env startPage endPage isAppend s0) ∧
    (s0.metadata = none → isAppend = false →
      (env.metaFetch ((imgs.headD { pageIndex := 1 }).base64) = MetaOutcome.genFail →
        (executeTranslation env startPage endPage isAppend s0).state.metadata =
          some { title := "Unknown Paper", authors := [], year := "", journal := "" }) ∧
      (env.metaFetch ((imgs.headD { pageIndex := 1 }).base64) = MetaOutcome.throwClient →
        (executeTranslation env startPage endPage isAppend s0).state.metadata =
          some { title := env.fileName, authors := [], year := "", journal := "" })) ∧
    (∀ mf,
      (executeTranslation { env with metaFetch := mf }
          startPage endPage isAppend s0).state.segments =
        (executeTranslation env startPage endPage isAppend s0).state.segments ∧
      (executeTranslation { env with metaFetch := mf }
          startPage endPage isAppend s0).alerts =
        (executeTranslation env startPage endPage isAppend s0).alerts) := by
  have hmeta : ∀ (mf : String → MetaOutcome),
      (s0.metadata.isSome = true ∨ isAppend = true) →
      metadataStep { env with metaFetch := mf } isAppend s0
        (imgs.headD { pageIndex := 1 }) = (s0.metadata, []) := by
    intro mf hcase
    unfold metadataStep
    rw [if_neg]
    intro hguard
    rw [Bool.and_eq_true] at hguard
    rcases hcase with h | h
    · rw [Option.isNone_iff_eq_none] at hguard
      rw [Option.isSome_iff_exists] at h
      obtain ⟨m, hm⟩ := h
      rw [hm] at hguard
      exact Option.some_ne_none m (by simpa using hguard.1)
    · rw [h] at hguard
      simp at hguard
  constructor
  · intro hcase
    cases hp : processPages env.parse env.pageOutcome env.clock pages.length
        s0.lastProcessedPage 0 pages (if !isAppend then [] else s0.segments)
        s0.lastProcessedPage with
    | done segs lp t =>
      constructor
      · rw [executeTranslation_done_eq env startPage endPage isAppend s0 imgs pages
          segs lp t hfile hrender hpages hne hp]
        have := hmeta env.metaFetch hcase
        simp only [show { env with metaFetch := env.metaFetch } = env from rfl] at this
        rw [this]
      · intro mf
        rw [executeTranslation_done_eq env startPage endPage isAppend s0 imgs pages
          segs lp t hfile hrender hpages hne hp]
        rw [executeTranslation_done_eq { env with metaFetch := mf } startPage endPage
          isAppend s0 imgs pages segs lp t hfile hrender hpages hne hp]
        have h1 := hmeta mf hcase
        have h2 := hmeta env.metaFetch hcase
        simp only [show { env with metaFetch := env.metaFetch } = env from rfl] at h2
        rw [h1, h2]
    | failed segs lp t =>
      constructor
      · rw [executeTranslation_failed_eq env startPage endPage isAppend s0 imgs pages
          segs lp t hfile hrender hpages hne hp]
        have := hmeta env.metaFetch hcase
        simp only [show { env with metaFetch := env.metaFetch } = env from rfl] at this
        rw [this]
      · intro mf
        rw [executeTranslation_failed_eq env startPage endPage isAppend s0 imgs pages
          segs lp t hfile hrender hpages hne hp]
        rw [executeTranslation_failed_eq { env with metaFetch := mf } startPage endPage
          isAppend s0 imgs pages segs lp t hfile hrender hpages hne hp]
        have h1 := hmeta mf hcase
        have h2 := hmeta env.metaFetch hcase
        simp only [show { env with metaFetch := env.metaFetch } = env from rfl] at h2
        rw [h1, h2]
  constructor
  · intro hnone happ
    have hguard : (s0.metadata.isNone && !isAppend) = true := by
      rw [hnone, happ]; rfl
    constructor
    · intro hfetch
      cases hp : processPages env.parse env.pageOutcome env.clock pages.length
          s0.lastProcessedPage 0 pages (if !isAppend then [] else s0.segments)
          s0.lastProcessedPage with
      | done segs lp t =>
        rw [executeTranslation_done_eq env startPage endPage isAppend s0 imgs pages
          segs lp t hfile hrender hpages hne hp]
        simp only [metadataStep, hguard, if_true, hfetch, analyzePaperMetadata]
      | failed segs lp t =>
        rw [executeTranslation_failed_eq env startPage endPage isAppend s0 imgs pages
          segs lp t hfile hrender hpages hne hp]
        simp only [metadataStep, hguard, if_true, hfetch, analyzePaperMetadata]
    · intro hfetch
      cases hp : processPages env.parse env.pageOutcome env.clock pages.length
          s0.lastProcessedPage 0 pages (if !isAppend then [] else s0.segments)
          s0.lastProcessedPage with
      | done segs lp t =>
        rw [executeTranslation_done_eq env startPage endPage isAppend s0 imgs pages
          segs lp t hfile hrender hpages hne hp]
        simp only [metadataStep, hguard, if_true, hfetch, analyzePaperMetadata]
      | failed segs lp t =>
        rw [executeTranslation_failed_eq env startPage endPage isAppend s0 imgs pages
          segs lp t hfile hrender hpages hne hp]
        simp only [metadataStep, hguard, if_true, hfetch, analyzePaperMetadata]
  · intro mf
    cases hp : processPages env.parse env.pageOutcome env.clock pages.length
        s0.lastProcessedPage 0 pages (if !isAppend then [] else s0.segments)
        s0.lastProcessedPage with
    | done segs lp t =>
      rw [executeTranslation_done_eq env startPage endPage isAppend s0 imgs pages
        segs lp t hfile hrender hpages hne hp]
      rw [executeTranslation_done_eq { env with metaFetch := mf } startPage endPage
        isAppend s0 imgs pages segs lp t hfile hrender hpages hne hp]
      exact ⟨rfl, rfl⟩
    | failed segs lp t =>
      rw [executeTranslation_failed_eq env startPage endPage isAppend s0 imgs pages
        segs lp t hfile hrender hpages hne hp]
      rw [executeTranslation_failed_eq { env with metaFetch := mf } startPage endPage
        isAppend s0 imgs pages segs lp t hfile hrender hpages hne hp]
      exact ⟨rfl, rfl⟩

/-- Witness for C8's amended statement at concrete inputs: an append batch
never touches metadata; a fresh batch with a failed metadata request stores
the "Unknown Paper" stub; and swapping the metadata oracle leaves the
resulting collection unchanged. -/
theorem metadata_request_policy_witness :
    (executeTranslation twoPageEnv 1 2 true sampleState).state.metadata =
      sampleState.metadata ∧
    (executeTranslation twoPageEnv 1 2 false sampleState).state.metadata =
      some { title := "Unknown Paper", authors := [], year := "", journal := "" } ∧
    (executeTranslation { twoPageEnv with metaFetch := fun _ => MetaOutcome.throwClient }
        1 2 false sampleState).state.segments =
      (executeTranslation twoPageEnv 1 2 false sampleState).state.segments :=
  ⟨((metadata_request_policy twoPageEnv 1 2 true sampleState
      [{ pageIndex := 1 }, { pageIndex := 2 }] [{ pageIndex := 1 }, { pageIndex := 2 }]
      rfl rfl (by decide) (by decide)).1 (Or.inr rfl)).1,
   ((metadata_request_policy twoPageEnv 1 2 false sampleState
      [{ pageIndex := 1 }, { pageIndex := 2 }] [{ pageIndex := 1 }, { pageIndex := 2 }]
      rfl rfl (by decide) (by decide)).2.1 rfl rfl).1 rfl,
   ((metadata_request_policy twoPageEnv 1 2 false sampleState
      [{ pageIndex := 1 }, { pageIndex := 2 }] [{ pageIndex := 1 }, { pageIndex := 2 }]
      rfl rfl (by decide) (by decide)).2.2 (fun _ => MetaOutcome.throwClient)).1⟩

/-! ### C9 / C10 — scroll synchronization -/

/-- C9: for a scroll event in the translated pane with positive denominator
`scrollHeight - clientHeight` and non-negative `scrollTop`, the forwarded
fraction is exactly `scrollTop / (scrollHeight - clientHeight)`, and the
detached surface applies `scrollTop = fraction * (itsScrollHeight -
itsClientHeight)` (its document height minus its window height); concretely,
scrollTop 300 with scrollHeight 1000 and clientHeight 400 gives fraction 1/2,
and applying 1/2 to a target with heights 800 and 300 gives 250. -/
theorem scroll_fraction_roundtrip (scrollTop sH cH tSH tCH : ℚ)
    (hpos : 0 < sH - cH) (hnn : 0 ≤ scrollTop) :
    forwardedFraction scrollTop sH cH = some (JsNum.num (scrollTop / (sH - cH))) ∧
    detachedScrollTarget (scrollTop / (sH - cH)) tSH tCH =
      some ((scrollTop / (sH - cH)) * (tSH - tCH)) ∧
    forwardedFraction 300 1000 400 = some (JsNum.num (1 / 2)) ∧
    detachedScrollTarget (1 / 2) 800 300 = some 250 := by
  have hne : sH - cH ≠ 0 := ne_of_gt hpos
  refine ⟨?_, ?_, ?_, ?_⟩
  · unfold forwardedFraction jsDiv
    rw [if_neg hne]
    rfl
  · unfold detachedScrollTarget
    rw [if_pos (div_nonneg hnn (le_of_lt hpos)), mul_comm]
  · unfold forwardedFraction jsDiv
    norm_num [jsIsNaN]
  · unfold detachedScrollTarget
    norm_num

/-- Witness for C9 at the concrete pane geometry from the claim. -/
theorem scroll_fraction_roundtrip_witness :
    forwardedFraction 300 1000 400 = some (JsNum.num (300 / (1000 - 400))) ∧
    detachedScrollTarget (300 / (1000 - 400)) 800 300 =
      some ((300 / ((1000 : ℚ) - 400)) * (800 - 300)) :=
  ⟨(scroll_fraction_roundtrip 300 1000 400 800 300 (by norm_num) (by norm_num)).1,
   (scroll_fraction_roundtrip 300 1000 400 800 300 (by norm_num) (by norm_num)).2.1⟩

/-- C10 counterexample: a scroll event with `scrollTop = 300` and
`scrollHeight = clientHeight = 1000` has denominator `0 ≤ 0`, yet the
synchronizer does not skip the update: the division yields +Infinity, for
which `isNaN` is false, so the fraction *is* forwarded to the detached
surface, and the companion-pane assignment (which has no guard at all) is
also executed — contradicting the claim that the update is skipped whenever
the denominator is ≤ 0. -/
theorem scroll_guard_cex :
    ((1000 : ℚ) - 1000 ≤ 0) ∧
    forwardedFraction 300 1000 1000 = some JsNum.posInf ∧
    (handleScrollRight true 300 1000 1000 800 300).2 ≠ none := by
  refine ⟨by norm_num, ?_, ?_⟩
  · unfold forwardedFraction jsDiv
    norm_num [jsIsNaN]
  · unfold handleScrollRight jsDiv
    norm_num [jsIsNaN]
    simp

/-- C10 amended: the synchronizer's only guard is `!isNaN(percentage)`, so
the update is skipped exactly when the division yields NaN — that is, when
`scrollTop = 0` and the denominator `scrollHeight - clientHeight = 0`; for
every other input, including zero denominator with nonzero `scrollTop`
(infinite fraction) and negative denominator (finite fraction), a value is
still forwarded. -/
theorem forwardedFraction_skip_iff (scrollTop sH cH : ℚ) :
    forwardedFraction scrollTop sH cH = none ↔ scrollTop = 0 ∧ sH - cH = 0 := by
  unfold forwardedFraction jsDiv
  by_cases hd : sH - cH = 0
  · rw [if_pos hd]
    rcases lt_trichotomy scrollTop 0 with h | h | h
    · simp [not_lt.mpr (le_of_lt h), h, hd, jsIsNaN]
      linarith
    · simp [h, hd, jsIsNaN]
    · simp [h, not_lt.mpr (le_of_lt h), hd, jsIsNaN]
      linarith
  · rw [if_neg hd]
    simp [jsIsNaN, hd]
